import Mathlib

/-!
Shallow embedding of the challenge status and countdown logic of the
event-detail view (`SpecificEvent`): the status classifier
`getChallengeStatus`, the countdown formatter `getCountdown`, the
auto-refresh delay computation (`nextUpdate` / `nextBoundary`), the
aggregate statistics (`stats`) and the filter counters
(`getFilterCounts`).  Timestamps are modelled as integer milliseconds
since the epoch (JavaScript `Date.getTime()`); comparisons between
`Date` values in the source compare exactly these integers.
-/

/-- Challenge type tag: the `type` field of the `Challenge` DTO,
one of `TEMPORARY`, `PERMANENT`, `RACE`. -/
inductive CType where
  | TEMPORARY
  | PERMANENT
  | RACE
deriving DecidableEq, Repr

/-- Challenge record, restricted to the fields the status, countdown,
stats and refresh logic read.  `releaseTime` and `endTime` are epoch
milliseconds (the source parses the ISO strings with `new Date(...)`;
parsing is an ingestion concern outside this core). -/
structure Challenge where
  id : Int
  points : Int
  type : CType
  releaseTime : Int
  endTime : Int
  isCompleted : Bool
deriving DecidableEq, Repr

/-- Result record of `getChallengeStatus`: the status string plus the
styling constants (color, background color, icon) the component
attaches to each status. -/
structure StatusView where
  status : String
  color : String
  bgColor : String
  icon : String
deriving DecidableEq, Repr

/-- Translation of `getChallengeStatus` (event-detail view): priority
cascade completed / upcoming / expired / active, each with its
hard-coded styling constants. -/
def getChallengeStatus (c : Challenge) (now : Int) : StatusView :=
  if c.isCompleted then
    ⟨"completed", "#00ff88", "rgba(0, 255, 136, 0.1)", "✅"⟩
  else if now < c.releaseTime then
    ⟨"upcoming", "#ffd700", "rgba(255, 215, 0, 0.1)", "⏳"⟩
  else if now > c.endTime ∧ c.type ≠ CType.PERMANENT then
    ⟨"expired", "#ff4444", "rgba(255, 68, 68, 0.1)", "⏰"⟩
  else
    ⟨"active", "#00ff88", "rgba(0, 255, 136, 0.1)", "🔥"⟩

/-- Derived challenge status, as the specification names it: one of
`upcoming`, `active`, `completed`, `expired`. -/
inductive ChallengeStatus where
  | upcoming
  | active
  | completed
  | expired
deriving DecidableEq, Repr

/-- Name of a status, as the string the component uses for it. -/
def statusName : ChallengeStatus → String
  | ChallengeStatus.upcoming => "upcoming"
  | ChallengeStatus.active => "active"
  | ChallengeStatus.completed => "completed"
  | ChallengeStatus.expired => "expired"

/-- Specification-side classifier, written from the spec's priority
rules verbatim: completed if `isCompleted`; else upcoming if
`now < releaseTime`; else expired if `type != PERMANENT` and
`now > endTime`; else active. -/
def classifySpec (c : Challenge) (now : Int) : ChallengeStatus :=
  if c.isCompleted then ChallengeStatus.completed
  else if now < c.releaseTime then ChallengeStatus.upcoming
  else if c.type ≠ CType.PERMANENT ∧ now > c.endTime then ChallengeStatus.expired
  else ChallengeStatus.active

/-- Sample temporary challenge used as a concrete test vector:
released at 10000 ms, ends at 20000 ms, not completed. -/
def sampleTemp : Challenge :=
  ⟨1, 5, CType.TEMPORARY, 10000, 20000, false⟩

/-- Sample permanent challenge used as a concrete test vector. -/
def samplePerm : Challenge :=
  ⟨2, 5, CType.PERMANENT, 10000, 20000, false⟩

/-- date-fns `differenceInSeconds` with its default rounding: the
millisecond difference divided by 1000, truncated toward zero. -/
def differenceInSeconds (a b : Int) : Int := Int.tdiv (a - b) 1000

/-- JavaScript remainder operator `a % b` (result takes the sign of the
dividend). -/
def jsRem (a b : Int) : Int := Int.tmod a b

/-- Days component of the countdown: `Math.floor(diff / 86400)`. -/
def cdDays (diff : Int) : Int := Int.fdiv diff 86400

/-- Hours component of the countdown: `Math.floor((diff % 86400) / 3600)`. -/
def cdHours (diff : Int) : Int := Int.fdiv (jsRem diff 86400) 3600

/-- Minutes component of the countdown: `Math.floor((diff % 3600) / 60)`. -/
def cdMinutes (diff : Int) : Int := Int.fdiv (jsRem diff 3600) 60

/-- Seconds component of the countdown: `diff % 60`. -/
def cdSeconds (diff : Int) : Int := jsRem diff 60

/-- Result record of `getCountdown`: the display text and the color
constant attached to it. -/
structure CountdownView where
  text : String
  color : String
deriving DecidableEq, Repr

/-- Countdown text for a not-yet-released challenge (`now < releaseTime`):
the `Démarre dans` branch of `getCountdown`, rendering the two largest
applicable units. -/
def upcomingCountdown (c : Challenge) (now : Int) : CountdownView :=
  let diff := differenceInSeconds c.releaseTime now
  let days := cdDays diff
  let hours := cdHours diff
  let minutes := cdMinutes diff
  let seconds := cdSeconds diff
  if days > 0 then
    ⟨"Démarre dans " ++ toString days ++ "j " ++ toString hours ++ "h", "#ffd700"⟩
  else if hours > 0 then
    ⟨"Démarre dans " ++ toString hours ++ "h " ++ toString minutes ++ "m", "#ffd700"⟩
  else if minutes > 0 then
    ⟨"Démarre dans " ++ toString minutes ++ "m " ++ toString seconds ++ "s", "#ffd700"⟩
  else
    ⟨"Démarre dans " ++ toString seconds ++ "s", "#ffd700"⟩

/-- Countdown once the release instant has passed: the part of
`getCountdown` after the upcoming branch — permanent label, expiry
label, or remaining time with its urgency color. -/
def afterReleaseCountdown (c : Challenge) (now : Int) : CountdownView :=
  if c.type = CType.PERMANENT then ⟨"Permanent", "#00ff88"⟩
  else if now > c.endTime then ⟨"Expiré", "#ff4444"⟩
  else
    let diff := differenceInSeconds c.endTime now
    let days := cdDays diff
    let hours := cdHours diff
    let minutes := cdMinutes diff
    let seconds := cdSeconds diff
    if diff ≤ 0 then ⟨"Expiré", "#ff4444"⟩
    else if days > 0 then
      ⟨toString days ++ "j " ++ toString hours ++ "h restantes", "#00ff88"⟩
    else if hours > 0 then
      ⟨toString hours ++ "h " ++ toString minutes ++ "m restantes",
        if hours < 1 then "#ff8800" else "#00ff88"⟩
    else if minutes > 0 then
      ⟨toString minutes ++ "m " ++ toString seconds ++ "s restantes",
        if minutes < 10 then "#ff4444" else "#ff8800"⟩
    else
      ⟨toString seconds ++ "s restantes", "#ff4444"⟩

/-- Translation of `getCountdown` (event-detail view): completed label,
upcoming branch, then the after-release cases. -/
def getCountdown (c : Challenge) (now : Int) : CountdownView :=
  if c.isCompleted then ⟨"Complété", "#00ff88"⟩
  else if now < c.releaseTime then upcomingCountdown c now
  else afterReleaseCountdown c now

/-- Merge of one delta into the running minimum of the auto-refresh
effect, where `none` plays the role of the initial `Infinity`
(JavaScript `Math.min(Infinity, x) = x`). -/
def minOpt (a : Option Int) (x : Int) : Option Int :=
  match a with
  | none => some x
  | some y => some (min y x)

/-- One iteration of the auto-refresh effect's `forEach`: release delta
while the release time is in the future, otherwise end delta while the
end time is in the future, otherwise leave the minimum unchanged. -/
def nextUpdateStep (now : Int) (acc : Option Int) (c : Challenge) : Option Int :=
  if c.releaseTime > now then minOpt acc (c.releaseTime - now)
  else if c.endTime > now then minOpt acc (c.endTime - now)
  else acc

/-- Running minimum `nextUpdate` computed by the auto-refresh effect
over the challenge list, `none` standing for `Infinity`. -/
def nextUpdate (cs : List Challenge) (now : Int) : Option Int :=
  cs.foldl (nextUpdateStep now) none

/-- Delay the auto-refresh effect schedules a refetch at: the computed
minimum, kept only under the guard
`nextUpdate < Infinity && nextUpdate > 0`.  (The extra one-second buffer
the effect adds when arming the timer is not part of the delay
computation.) -/
def nextBoundary (cs : List Challenge) (now : Int) : Option Int :=
  match nextUpdate cs now with
  | none => none
  | some d => if 0 < d then some d else none

/-- Candidate transition delta one challenge actually contributes in
the auto-refresh effect, read off the branch structure of
`nextUpdateStep`. -/
def codeCandidate (c : Challenge) (now : Int) : Option Int :=
  if c.releaseTime > now then some (c.releaseTime - now)
  else if c.endTime > now then some (c.endTime - now)
  else none

/-- Candidate transition delta as claim C4 states it: the end-time
delta only counts for a challenge that is not completed, not permanent,
and whose end time has not passed. -/
def claimedCandidate (c : Challenge) (now : Int) : Option Int :=
  if now < c.releaseTime then some (c.releaseTime - now)
  else if c.isCompleted = false ∧ c.type ≠ CType.PERMANENT ∧ now ≤ c.endTime then
    some (c.endTime - now)
  else none

/-- Refresh delay as claim C4 describes the computation: the minimum of
all positive claimed candidate deltas, or `none` when there is none. -/
def claimedNextBoundary (cs : List Challenge) (now : Int) : Option Int :=
  ((cs.filterMap (fun c => claimedCandidate c now)).filter (fun d => decide (0 < d))).min?

/-- Sample completed temporary challenge whose end time is still ahead
of the evaluation instant used in the C4 counterexample. -/
def sampleDone : Challenge :=
  ⟨3, 5, CType.TEMPORARY, 0, 5000, true⟩

/-- Scenario challenge of the spec's end-to-end test: released one hour
before the evaluation instant 0, ending thirty minutes after it,
temporary, not completed. -/
def scenarioChallenge : Challenge :=
  ⟨4, 10, CType.TEMPORARY, -3600000, 1800000, false⟩

/-- Sample active temporary challenge with five minutes remaining at
instant 0, used for the C6 counterexample. -/
def sampleUrgent : Challenge :=
  ⟨5, 5, CType.TEMPORARY, -3600000, 300000, false⟩

/-- Aggregate statistics record computed by the `stats` memo of the
event-detail view. -/
structure Stats where
  totalChallenges : Nat
  completedChallenges : Nat
  totalPoints : Int
  earnedPoints : Int
  activeChallenges : Nat
  upcomingChallenges : Nat
  expiredChallenges : Nat
deriving DecidableEq, Repr

/-- One iteration of the stats `forEach`: add the challenge's points to
the total, then bump exactly one of the four status counters, earning
the points when the challenge is completed. -/
def statsStep (now : Int) (s : Stats) (c : Challenge) : Stats :=
  let s1 := { s with totalPoints := s.totalPoints + c.points }
  if c.isCompleted then
    { s1 with completedChallenges := s1.completedChallenges + 1,
              earnedPoints := s1.earnedPoints + c.points }
  else if now < c.releaseTime then
    { s1 with upcomingChallenges := s1.upcomingChallenges + 1 }
  else if now > c.endTime ∧ c.type ≠ CType.PERMANENT then
    { s1 with expiredChallenges := s1.expiredChallenges + 1 }
  else
    { s1 with activeChallenges := s1.activeChallenges + 1 }

/-- Translation of the `stats` memo: the total challenge count is taken
from the list length up front, the remaining counters accumulate over
the challenges at the current time. -/
def stats (cs : List Challenge) (now : Int) : Stats :=
  cs.foldl (statsStep now)
    { totalChallenges := cs.length, completedChallenges := 0, totalPoints := 0,
      earnedPoints := 0, activeChallenges := 0, upcomingChallenges := 0,
      expiredChallenges := 0 }

/-- Filter counters record computed by `getFilterCounts`. -/
structure FilterCounts where
  all : Nat
  active : Nat
  upcoming : Nat
  completed : Nat
  expired : Nat
deriving DecidableEq, Repr

/-- One iteration of the `getFilterCounts` `forEach`: bump `all`, then
bump the counter named by the challenge's derived status
(`counts[status]++`, written out over the four possible status
strings). -/
def fcStep (now : Int) (k : FilterCounts) (c : Challenge) : FilterCounts :=
  let k1 := { k with all := k.all + 1 }
  if (getChallengeStatus c now).status = "active" then
    { k1 with active := k1.active + 1 }
  else if (getChallengeStatus c now).status = "upcoming" then
    { k1 with upcoming := k1.upcoming + 1 }
  else if (getChallengeStatus c now).status = "completed" then
    { k1 with completed := k1.completed + 1 }
  else if (getChallengeStatus c now).status = "expired" then
    { k1 with expired := k1.expired + 1 }
  else k1

/-- Translation of `getFilterCounts` over the challenge list. -/
def getFilterCounts (cs : List Challenge) (now : Int) : FilterCounts :=
  cs.foldl (fcStep now) ⟨0, 0, 0, 0, 0⟩

/-- Predicate on challenges: the derived status carries the given
name. -/
def isStatus (name : String) (now : Int) (c : Challenge) : Bool :=
  decide ((getChallengeStatus c now).status = name)

/-- C1: for every challenge and every instant `now` (timestamp
ordering unconstrained, so inverted windows are included),
`getChallengeStatus` returns exactly the status the spec's priority
rules prescribe, and the returned status is always one of the four
defined statuses — the function is total. -/
theorem getChallengeStatus_matches_spec (c : Challenge) (now : Int) :
    (getChallengeStatus c now).status = statusName (classifySpec c now) ∧
    ((getChallengeStatus c now).status = "completed" ∨
     (getChallengeStatus c now).status = "upcoming" ∨
     (getChallengeStatus c now).status = "expired" ∨
     (getChallengeStatus c now).status = "active") := by
  by_cases h1 : c.isCompleted <;>
    by_cases h2 : now < c.releaseTime <;>
    by_cases h3 : now > c.endTime <;>
    by_cases h4 : c.type = CType.PERMANENT <;>
    simp [getChallengeStatus, classifySpec, statusName, h1, h2, h3, h4]

/-- C2: for a non-permanent, non-completed challenge whose window is
well-ordered (`releaseTime ≤ endTime`, the data-model invariant), the
status boundaries are inclusive on the active side: upcoming strictly
before the release instant, active at the release instant and at the
end instant, expired strictly after the end instant. -/
theorem classify_boundaries (c : Challenge) (now : Int)
    (hperm : c.type ≠ CType.PERMANENT) (hcomp : c.isCompleted = false)
    (hord : c.releaseTime ≤ c.endTime) :
    (now < c.releaseTime → (getChallengeStatus c now).status = "upcoming") ∧
    (getChallengeStatus c c.releaseTime).status = "active" ∧
    (getChallengeStatus c c.endTime).status = "active" ∧
    (c.endTime < now → (getChallengeStatus c now).status = "expired") := by
  refine ⟨?_, ?_, ?_, ?_⟩
  · intro h
    simp [getChallengeStatus, hcomp, h]
  · have h1 : ¬ (c.releaseTime < c.releaseTime) := lt_irrefl _
    have h2 : ¬ (c.releaseTime > c.endTime) := not_lt.mpr hord
    simp [getChallengeStatus, hcomp, h1, h2]
  · have h1 : ¬ (c.endTime < c.releaseTime) := not_lt.mpr hord
    have h2 : ¬ (c.endTime > c.endTime) := lt_irrefl _
    simp [getChallengeStatus, hcomp, h1, h2]
  · intro h
    have h1 : ¬ (now < c.releaseTime) := not_lt.mpr (le_trans hord (le_of_lt h))
    simp [getChallengeStatus, hcomp, h1, h, hperm]

/-- Witness for C2 at the sample temporary challenge. -/
theorem classify_boundaries_witness :
    (getChallengeStatus sampleTemp 5000).status = "upcoming" ∧
    (getChallengeStatus sampleTemp sampleTemp.releaseTime).status = "active" ∧
    (getChallengeStatus sampleTemp sampleTemp.endTime).status = "active" ∧
    (getChallengeStatus sampleTemp 25000).status = "expired" :=
  ⟨(classify_boundaries sampleTemp 5000 (by decide) rfl (by decide)).1 (by decide),
   (classify_boundaries sampleTemp 0 (by decide) rfl (by decide)).2.1,
   (classify_boundaries sampleTemp 0 (by decide) rfl (by decide)).2.2.1,
   (classify_boundaries sampleTemp 25000 (by decide) rfl (by decide)).2.2.2 (by decide)⟩

/-- C3: a challenge of type `PERMANENT` is never classified as expired,
at any instant and in any completion state. -/
theorem classify_permanent_not_expired (c : Challenge) (now : Int)
    (hperm : c.type = CType.PERMANENT) :
    (getChallengeStatus c now).status ≠ "expired" := by
  by_cases h1 : c.isCompleted <;> by_cases h2 : now < c.releaseTime <;>
    simp [getChallengeStatus, h1, h2, hperm]

/-- Witness for C3 at the sample permanent challenge, past its end time. -/
theorem classify_permanent_not_expired_witness :
    (getChallengeStatus samplePerm 25000).status ≠ "expired" :=
  classify_permanent_not_expired samplePerm 25000 rfl

theorem nextUpdateStep_eq (now : Int) (acc : Option Int) (c : Challenge) :
    nextUpdateStep now acc c =
      match codeCandidate c now with
      | none => acc
      | some x => minOpt acc x := by
  unfold nextUpdateStep codeCandidate
  split_ifs <;> rfl

theorem foldl_nextUpdateStep (now : Int) (cs : List Challenge) (acc : Option Int) :
    cs.foldl (nextUpdateStep now) acc =
      (cs.filterMap (fun c => codeCandidate c now)).foldl minOpt acc := by
  induction cs generalizing acc with
  | nil => rfl
  | cons c cs ih =>
      cases h : codeCandidate c now with
      | none =>
          simp only [List.foldl_cons, nextUpdateStep_eq, h, List.filterMap_cons]
          exact ih _
      | some x =>
          simp only [List.foldl_cons, nextUpdateStep_eq, h, List.filterMap_cons]
          exact ih _

theorem foldl_minOpt_some (l : List Int) (a : Int) :
    l.foldl minOpt (some a) = some (l.foldl min a) := by
  induction l generalizing a with
  | nil => rfl
  | cons x l ih => simp [List.foldl_cons, minOpt, ih]

theorem foldl_minOpt_none (l : List Int) :
    l.foldl minOpt none = l.min? := by
  cases l with
  | nil => rfl
  | cons a t =>
      rw [List.foldl_cons]
      show t.foldl minOpt (some a) = some (t.foldl min a)
      exact foldl_minOpt_some t a

theorem codeCandidate_pos (c : Challenge) (now : Int) (d : Int)
    (h : codeCandidate c now = some d) : 0 < d := by
  unfold codeCandidate at h
  split_ifs at h with h1 h2
  · injection h with h'
    omega
  · injection h with h'
    omega

theorem foldl_min_pos (l : List Int) (a : Int) (ha : 0 < a)
    (hl : ∀ x ∈ l, 0 < x) : 0 < l.foldl min a := by
  induction l generalizing a with
  | nil => exact ha
  | cons x l ih =>
      rw [List.foldl_cons]
      exact ih (min a x)
        (lt_min ha (hl x (List.mem_cons_self x l)))
        (fun y hy => hl y (List.mem_cons_of_mem _ hy))

theorem min?_pos (l : List Int) (hl : ∀ x ∈ l, 0 < x) (d : Int)
    (h : l.min? = some d) : 0 < d := by
  cases l with
  | nil => cases h
  | cons a t =>
      have h2 : (a :: t).min? = some (t.foldl min a) := rfl
      rw [h2] at h
      injection h with h3
      rw [← h3]
      exact foldl_min_pos t a (hl a (List.mem_cons_self a t))
        (fun x hx => hl x (List.mem_cons_of_mem _ hx))

/-- C4 amended: the scheduled delay is the minimum of the per-challenge
candidate deltas the code computes (release delta while unreleased,
else end delta while the end time is strictly in the future, regardless
of completion flag or permanence), and it is `none` when no challenge
contributes a candidate — in particular for the empty list. -/
theorem nextBoundary_eq_min_candidates (cs : List Challenge) (now : Int) :
    nextBoundary cs now = (cs.filterMap (fun c => codeCandidate c now)).min? ∧
    nextBoundary ([] : List Challenge) now = none := by
  constructor
  · unfold nextBoundary nextUpdate
    rw [foldl_nextUpdateStep, foldl_minOpt_none]
    cases h : (cs.filterMap (fun c => codeCandidate c now)).min? with
    | none => rfl
    | some d =>
        have hpos : ∀ x ∈ cs.filterMap (fun c => codeCandidate c now), 0 < x := by
          intro x hx
          rcases List.mem_filterMap.mp hx with ⟨c, _, hc⟩
          exact codeCandidate_pos c now x hc
        have hd : 0 < d := min?_pos _ hpos d h
        simp [hd]
  · rfl

/-- C4 counterexample: at `now = 1000`, the completed challenge
`sampleDone` (window 0–5000) makes the effect schedule a refresh in
4000 ms, while the candidate rule stated in the claim assigns it no
candidate at all, so the claimed result is `none`. -/
theorem nextBoundary_claim_counterexample :
    nextBoundary [sampleDone] 1000 = some 4000 ∧
    claimedNextBoundary [sampleDone] 1000 = none := by
  constructor <;> rfl

theorem cdDays_eq (d : Int) : cdDays d = d / 86400 :=
  Int.fdiv_eq_ediv d (by omega)

theorem cdHours_eq (d : Int) (hd : 0 ≤ d) : cdHours d = d % 86400 / 3600 := by
  unfold cdHours jsRem
  rw [Int.tmod_eq_emod hd (by omega), Int.fdiv_eq_ediv _ (by omega)]

theorem cdMinutes_eq (d : Int) (hd : 0 ≤ d) : cdMinutes d = d % 3600 / 60 := by
  unfold cdMinutes jsRem
  rw [Int.tmod_eq_emod hd (by omega), Int.fdiv_eq_ediv _ (by omega)]

theorem cdSeconds_eq (d : Int) (hd : 0 ≤ d) : cdSeconds d = d % 60 := by
  unfold cdSeconds jsRem
  rw [Int.tmod_eq_emod hd (by omega)]

/-- C5 counterexample: in the spec scenario (active, thirty minutes
remaining) the countdown's urgency color is the intermediate
`"#ff8800"` — the constant the code attaches to a sub-hour remainder of
at least ten minutes — and not the `"#00ff88"` it uses when no urgency
applies, so the signalled tier is not the normal one. -/
theorem scenario_tier_counterexample :
    (getChallengeStatus scenarioChallenge 0).status = "active" ∧
    (getCountdown scenarioChallenge 0).color = "#ff8800" ∧
    (getCountdown scenarioChallenge 0).color ≠ "#00ff88" := by
  refine ⟨rfl, by decide, by decide⟩

/-- C5 amended: in the spec scenario the classification is active, the
refresh delay is exactly 1800000 ms (thirty minutes), and the countdown
reads `30m 0s restantes` with the sub-hour urgency color `"#ff8800"`
(under one hour but more than ten minutes left), not the no-urgency
color. -/
theorem scenario_values :
    (getChallengeStatus scenarioChallenge 0).status = "active" ∧
    getCountdown scenarioChallenge 0 = ⟨"30m 0s restantes", "#ff8800"⟩ ∧
    nextBoundary [scenarioChallenge] 0 = some 1800000 := by
  refine ⟨rfl, by decide, rfl⟩

/-- C6 counterexample: with five minutes remaining the urgency signal
the countdown emits is the hard-coded color string `"#ff4444"`, not an
enum-like tier value; and it is not the only styling-adjacent output,
since `getChallengeStatus` attaches color, background and icon
constants to the very same input. -/
theorem countdown_color_constant_counterexample :
    getCountdown sampleUrgent 0 = ⟨"5m 0s restantes", "#ff4444"⟩ ∧
    (getChallengeStatus sampleUrgent 0).color = "#00ff88" ∧
    (getChallengeStatus sampleUrgent 0).bgColor = "rgba(0, 255, 136, 0.1)" ∧
    (getChallengeStatus sampleUrgent 0).icon = "🔥" := by
  refine ⟨by decide, rfl, rfl, rfl⟩

/-- C6 amended: for an active non-permanent challenge the countdown
encodes urgency as hard-coded color strings on its result — `"#00ff88"`
at an hour or more of remaining time, `"#ff4444"` below ten minutes,
`"#ff8800"` in between — and `getChallengeStatus` emits styling
constants of its own on the same input, so the countdown color is not
the only styling-adjacent signal. -/
theorem countdown_urgency_colors (c : Challenge) (now : Int)
    (hcomp : c.isCompleted = false) (hperm : c.type ≠ CType.PERMANENT)
    (hrel : c.releaseTime ≤ now) (hend : now ≤ c.endTime) :
    (3600 ≤ differenceInSeconds c.endTime now →
      (getCountdown c now).color = "#00ff88") ∧
    (60 ≤ differenceInSeconds c.endTime now →
      differenceInSeconds c.endTime now < 3600 →
      (getCountdown c now).color =
        (if cdMinutes (differenceInSeconds c.endTime now) < 10
         then "#ff4444" else "#ff8800")) ∧
    (0 < differenceInSeconds c.endTime now →
      differenceInSeconds c.endTime now < 60 →
      (getCountdown c now).color = "#ff4444") ∧
    (getChallengeStatus c now).color = "#00ff88" ∧
    (getChallengeStatus c now).icon = "🔥" := by
  have hnl : ¬ (now < c.releaseTime) := not_lt.mpr hrel
  have hng : ¬ (now > c.endTime) := not_lt.mpr hend
  refine ⟨?_, ?_, ?_, ?_, ?_⟩
  · intro h1
    have hd0 : ¬ (differenceInSeconds c.endTime now ≤ 0) := by omega
    by_cases hbig : 86400 ≤ differenceInSeconds c.endTime now
    · have hdays : cdDays (differenceInSeconds c.endTime now) > 0 := by
        rw [cdDays_eq]
        omega
      simp [getCountdown, hcomp, hnl, afterReleaseCountdown, hperm, hng, hd0, hdays]
    · have hdays : ¬ (cdDays (differenceInSeconds c.endTime now) > 0) := by
        rw [cdDays_eq]
        omega
      have hhrs : cdHours (differenceInSeconds c.endTime now) > 0 := by
        rw [cdHours_eq _ (by omega)]
        omega
      have hh1 : ¬ (cdHours (differenceInSeconds c.endTime now) < 1) := by omega
      simp [getCountdown, hcomp, hnl, afterReleaseCountdown, hperm, hng, hd0, hdays,
        hhrs, hh1]
  · intro h1 h2
    have hd0 : ¬ (differenceInSeconds c.endTime now ≤ 0) := by omega
    have hdays : ¬ (cdDays (differenceInSeconds c.endTime now) > 0) := by
      rw [cdDays_eq]
      omega
    have hhrs : ¬ (cdHours (differenceInSeconds c.endTime now) > 0) := by
      rw [cdHours_eq _ (by omega)]
      omega
    have hmin : cdMinutes (differenceInSeconds c.endTime now) > 0 := by
      rw [cdMinutes_eq _ (by omega)]
      omega
    simp [getCountdown, hcomp, hnl, afterReleaseCountdown, hperm, hng, hd0, hdays,
      hhrs, hmin]
  · intro h1 h2
    have hd0 : ¬ (differenceInSeconds c.endTime now ≤ 0) := by omega
    have hdays : ¬ (cdDays (differenceInSeconds c.endTime now) > 0) := by
      rw [cdDays_eq]
      omega
    have hhrs : ¬ (cdHours (differenceInSeconds c.endTime now) > 0) := by
      rw [cdHours_eq _ (by omega)]
      omega
    have hmin : ¬ (cdMinutes (differenceInSeconds c.endTime now) > 0) := by
      rw [cdMinutes_eq _ (by omega)]
      omega
    simp [getCountdown, hcomp, hnl, afterReleaseCountdown, hperm, hng, hd0, hdays,
      hhrs, hmin]
  · simp [getChallengeStatus, hcomp, hnl, hng]
  · simp [getChallengeStatus, hcomp, hnl, hng]

/-- Witness for the amended C6 at the five-minute sample challenge. -/
theorem countdown_urgency_colors_witness :
    (getCountdown sampleUrgent 0).color =
      (if cdMinutes (differenceInSeconds sampleUrgent.endTime 0) < 10
       then "#ff4444" else "#ff8800") ∧
    (getChallengeStatus sampleUrgent 0).color = "#00ff88" :=
  ⟨(countdown_urgency_colors sampleUrgent 0 rfl (by decide) (by decide)
      (by decide)).2.1 (by decide) (by decide),
   (countdown_urgency_colors sampleUrgent 0 rfl (by decide) (by decide)
      (by decide)).2.2.2.1⟩

/-- C7: the countdown never renders a negative unit and degrades
gracefully at the release boundary.  In each branch that displays
numbers the underlying second difference is non-negative, every
displayed unit of a non-negative difference is non-negative, the
difference at the exact release instant is zero, and at that instant a
non-completed challenge is already rendered with the after-release
(active-state) text rather than the `Démarre dans` form. -/
theorem getCountdown_never_negative (c : Challenge) (now : Int) :
    (now < c.releaseTime → 0 ≤ differenceInSeconds c.releaseTime now) ∧
    (now ≤ c.endTime → 0 ≤ differenceInSeconds c.endTime now) ∧
    (∀ d : Int, 0 ≤ d →
      0 ≤ cdDays d ∧ 0 ≤ cdHours d ∧ 0 ≤ cdMinutes d ∧ 0 ≤ cdSeconds d) ∧
    differenceInSeconds c.releaseTime c.releaseTime = 0 ∧
    (c.isCompleted = false →
      getCountdown c c.releaseTime = afterReleaseCountdown c c.releaseTime) := by
  refine ⟨?_, ?_, ?_, ?_, ?_⟩
  · intro h
    exact Int.tdiv_nonneg (by omega) (by omega)
  · intro h
    exact Int.tdiv_nonneg (by omega) (by omega)
  · intro d hd
    refine ⟨Int.fdiv_nonneg hd (by omega), ?_, ?_, ?_⟩
    · exact Int.fdiv_nonneg (Int.tmod_nonneg _ hd) (by omega)
    · exact Int.fdiv_nonneg (Int.tmod_nonneg _ hd) (by omega)
    · exact Int.tmod_nonneg _ hd
  · simp [differenceInSeconds]
  · intro hcomp
    simp [getCountdown, hcomp, lt_irrefl]

/-- Witness for C7 at the sample temporary challenge. -/
theorem getCountdown_never_negative_witness :
    0 ≤ differenceInSeconds sampleTemp.releaseTime 5000 ∧
    0 ≤ cdDays 90061 ∧
    getCountdown sampleTemp sampleTemp.releaseTime =
      afterReleaseCountdown sampleTemp sampleTemp.releaseTime :=
  ⟨(getCountdown_never_negative sampleTemp 5000).1 (by decide),
   ((getCountdown_never_negative sampleTemp 5000).2.2.1 90061 (by decide)).1,
   (getCountdown_never_negative sampleTemp 0).2.2.2.2 rfl⟩

/-- C8: the classifier and the countdown are deterministic pure
functions of the pair (challenge, now): two evaluations on equal
inputs produce equal outputs, with no other dependency. -/
theorem classify_countdown_deterministic (c c' : Challenge) (n n' : Int)
    (hc : c = c') (hn : n = n') :
    getChallengeStatus c n = getChallengeStatus c' n' ∧
    getCountdown c n = getCountdown c' n' := by
  subst hc
  subst hn
  exact ⟨rfl, rfl⟩

/-- Witness for C8 at the sample temporary challenge. -/
theorem classify_countdown_deterministic_witness :
    getChallengeStatus sampleTemp 0 = getChallengeStatus sampleTemp 0 ∧
    getCountdown sampleTemp 0 = getCountdown sampleTemp 0 :=
  classify_countdown_deterministic sampleTemp sampleTemp 0 0 rfl rfl

/-- C9: at the exact end instant, a non-completed non-permanent
challenge with a well-ordered window is still classified active, while
its countdown already shows the expired label — the classification and
the countdown text disagree there. -/
theorem status_countdown_disagree_at_end (c : Challenge)
    (hcomp : c.isCompleted = false) (hperm : c.type ≠ CType.PERMANENT)
    (hord : c.releaseTime ≤ c.endTime) :
    (getChallengeStatus c c.endTime).status = "active" ∧
    (getCountdown c c.endTime).text = "Expiré" := by
  have h1 : ¬ (c.endTime < c.releaseTime) := not_lt.mpr hord
  have h2 : ¬ (c.endTime > c.endTime) := lt_irrefl _
  constructor
  · simp [getChallengeStatus, hcomp, h1, h2]
  · have h3 : differenceInSeconds c.endTime c.endTime = 0 := by
      simp [differenceInSeconds]
    simp [getCountdown, hcomp, h1, afterReleaseCountdown, hperm, h2, h3]

/-- Witness for C9 at the sample temporary challenge. -/
theorem status_countdown_disagree_witness :
    (getChallengeStatus sampleTemp sampleTemp.endTime).status = "active" ∧
    (getCountdown sampleTemp sampleTemp.endTime).text = "Expiré" :=
  status_countdown_disagree_at_end sampleTemp rfl (by decide) (by decide)

theorem status_eq_completed (c : Challenge) (now : Int) (h : c.isCompleted = true) :
    (getChallengeStatus c now).status = "completed" := by
  simp [getChallengeStatus, h]

theorem status_eq_upcoming (c : Challenge) (now : Int) (h1 : c.isCompleted = false)
    (h2 : now < c.releaseTime) :
    (getChallengeStatus c now).status = "upcoming" := by
  simp [getChallengeStatus, h1, h2]

theorem status_eq_expired (c : Challenge) (now : Int) (h1 : c.isCompleted = false)
    (h2 : ¬ now < c.releaseTime)
    (h3 : now > c.endTime ∧ c.type ≠ CType.PERMANENT) :
    (getChallengeStatus c now).status = "expired" := by
  simp [getChallengeStatus, h1, h2, h3]

theorem status_eq_active (c : Challenge) (now : Int) (h1 : c.isCompleted = false)
    (h2 : ¬ now < c.releaseTime)
    (h3 : ¬ (now > c.endTime ∧ c.type ≠ CType.PERMANENT)) :
    (getChallengeStatus c now).status = "active" := by
  simp [getChallengeStatus, h1, h2, h3]

theorem stats_total_foldl (now : Int) (cs : List Challenge) (s : Stats) :
    (cs.foldl (statsStep now) s).totalChallenges = s.totalChallenges := by
  induction cs generalizing s with
  | nil => rfl
  | cons c cs ih =>
      rw [List.foldl_cons, ih]
      by_cases h1 : c.isCompleted <;> by_cases h2 : now < c.releaseTime <;>
        by_cases h3 : now > c.endTime ∧ c.type ≠ CType.PERMANENT <;>
        simp [statsStep, h1, h2, h3]

theorem stats_sum_foldl (now : Int) (cs : List Challenge) (s : Stats) :
    (cs.foldl (statsStep now) s).completedChallenges +
      (cs.foldl (statsStep now) s).upcomingChallenges +
      (cs.foldl (statsStep now) s).expiredChallenges +
      (cs.foldl (statsStep now) s).activeChallenges =
    s.completedChallenges + s.upcomingChallenges + s.expiredChallenges +
      s.activeChallenges + cs.length := by
  induction cs generalizing s with
  | nil => simp
  | cons c cs ih =>
      rw [List.foldl_cons, ih]
      by_cases h1 : c.isCompleted <;> by_cases h2 : now < c.releaseTime <;>
        by_cases h3 : now > c.endTime ∧ c.type ≠ CType.PERMANENT <;>
        simp [statsStep, h1, h2, h3, List.length_cons] <;> omega

theorem statsStep_count (now : Int) (s : Stats) (c : Challenge) :
    (statsStep now s c).completedChallenges =
      s.completedChallenges + (if isStatus "completed" now c = true then 1 else 0) ∧
    (statsStep now s c).upcomingChallenges =
      s.upcomingChallenges + (if isStatus "upcoming" now c = true then 1 else 0) ∧
    (statsStep now s c).expiredChallenges =
      s.expiredChallenges + (if isStatus "expired" now c = true then 1 else 0) ∧
    (statsStep now s c).activeChallenges =
      s.activeChallenges + (if isStatus "active" now c = true then 1 else 0) := by
  by_cases h1 : c.isCompleted
  · have hst := status_eq_completed c now h1
    simp [statsStep, h1, isStatus, hst]
  · have hb : c.isCompleted = false := by simpa using h1
    by_cases h2 : now < c.releaseTime
    · have hst := status_eq_upcoming c now hb h2
      simp [statsStep, h1, h2, isStatus, hst]
    · by_cases h3 : now > c.endTime ∧ c.type ≠ CType.PERMANENT
      · have hst := status_eq_expired c now hb h2 h3
        simp [statsStep, h1, h2, h3, isStatus, hst]
      · have hst := status_eq_active c now hb h2 h3
        simp [statsStep, h1, h2, h3, isStatus, hst]

theorem stats_completed_foldl (now : Int) (cs : List Challenge) (s : Stats) :
    (cs.foldl (statsStep now) s).completedChallenges =
      s.completedChallenges + cs.countP (isStatus "completed" now) := by
  induction cs generalizing s with
  | nil => simp
  | cons c cs ih =>
      rw [List.foldl_cons, List.countP_cons, ih]
      have h := (statsStep_count now s c).1
      by_cases hv : isStatus "completed" now c = true <;> simp [hv] at h ⊢ <;> omega

theorem stats_upcoming_foldl (now : Int) (cs : List Challenge) (s : Stats) :
    (cs.foldl (statsStep now) s).upcomingChallenges =
      s.upcomingChallenges + cs.countP (isStatus "upcoming" now) := by
  induction cs generalizing s with
  | nil => simp
  | cons c cs ih =>
      rw [List.foldl_cons, List.countP_cons, ih]
      have h := (statsStep_count now s c).2.1
      by_cases hv : isStatus "upcoming" now c = true <;> simp [hv] at h ⊢ <;> omega

theorem stats_expired_foldl (now : Int) (cs : List Challenge) (s : Stats) :
    (cs.foldl (statsStep now) s).expiredChallenges =
      s.expiredChallenges + cs.countP (isStatus "expired" now) := by
  induction cs generalizing s with
  | nil => simp
  | cons c cs ih =>
      rw [List.foldl_cons, List.countP_cons, ih]
      have h := (statsStep_count now s c).2.2.1
      by_cases hv : isStatus "expired" now c = true <;> simp [hv] at h ⊢ <;> omega

theorem stats_active_foldl (now : Int) (cs : List Challenge) (s : Stats) :
    (cs.foldl (statsStep now) s).activeChallenges =
      s.activeChallenges + cs.countP (isStatus "active" now) := by
  induction cs generalizing s with
  | nil => simp
  | cons c cs ih =>
      rw [List.foldl_cons, List.countP_cons, ih]
      have h := (statsStep_count now s c).2.2.2
      by_cases hv : isStatus "active" now c = true <;> simp [hv] at h ⊢ <;> omega

theorem stats_points_foldl (now : Int) (cs : List Challenge) :
    ∀ s : Stats, (∀ c ∈ cs, 0 ≤ c.points) → s.earnedPoints ≤ s.totalPoints →
      (cs.foldl (statsStep now) s).earnedPoints ≤
        (cs.foldl (statsStep now) s).totalPoints := by
  induction cs with
  | nil =>
      intro s _ hs
      exact hs
  | cons c cs ih =>
      intro s hpts hs
      rw [List.foldl_cons]
      apply ih
      · intro x hx
        exact hpts x (List.mem_cons_of_mem _ hx)
      · have hc : 0 ≤ c.points := hpts c (List.mem_cons_self c cs)
        by_cases h1 : c.isCompleted <;> by_cases h2 : now < c.releaseTime <;>
          by_cases h3 : now > c.endTime ∧ c.type ≠ CType.PERMANENT <;>
          simp [statsStep, h1, h2, h3] <;> omega

theorem fcStep_count (now : Int) (k : FilterCounts) (c : Challenge) :
    (fcStep now k c).all = k.all + 1 ∧
    (fcStep now k c).active =
      k.active + (if isStatus "active" now c = true then 1 else 0) ∧
    (fcStep now k c).upcoming =
      k.upcoming + (if isStatus "upcoming" now c = true then 1 else 0) ∧
    (fcStep now k c).completed =
      k.completed + (if isStatus "completed" now c = true then 1 else 0) ∧
    (fcStep now k c).expired =
      k.expired + (if isStatus "expired" now c = true then 1 else 0) := by
  by_cases h1 : c.isCompleted
  · have hst := status_eq_completed c now h1
    simp [fcStep, isStatus, hst]
  · have hb : c.isCompleted = false := by simpa using h1
    by_cases h2 : now < c.releaseTime
    · have hst := status_eq_upcoming c now hb h2
      simp [fcStep, isStatus, hst]
    · by_cases h3 : now > c.endTime ∧ c.type ≠ CType.PERMANENT
      · have hst := status_eq_expired c now hb h2 h3
        simp [fcStep, isStatus, hst]
      · have hst := status_eq_active c now hb h2 h3
        simp [fcStep, isStatus, hst]

theorem fc_foldl (now : Int) (cs : List Challenge) (k : FilterCounts) :
    cs.foldl (fcStep now) k =
      ⟨k.all + cs.length,
       k.active + cs.countP (isStatus "active" now),
       k.upcoming + cs.countP (isStatus "upcoming" now),
       k.completed + cs.countP (isStatus "completed" now),
       k.expired + cs.countP (isStatus "expired" now)⟩ := by
  induction cs generalizing k with
  | nil => simp
  | cons c cs ih =>
      rw [List.foldl_cons, ih]
      obtain ⟨ha, hac, hup, hco, hex⟩ := fcStep_count now k c
      simp only [List.countP_cons, List.length_cons, FilterCounts.mk.injEq,
        ha, hac, hup, hco, hex]
      refine ⟨by omega, ?_, ?_, ?_, ?_⟩ <;> split_ifs <;> omega

/-- C10: the stats memo assigns every challenge to exactly one of the
four status counters, so they sum to the total; each counter equals the
number of challenges whose `getChallengeStatus` status carries the
corresponding name; with non-negative points (the data-model
assumption) the earned points never exceed the total points; and
`getFilterCounts` agrees with the same per-status counts, with `all`
equal to the list length. -/
theorem stats_partition (cs : List Challenge) (now : Int) :
    (stats cs now).completedChallenges + (stats cs now).upcomingChallenges +
        (stats cs now).expiredChallenges + (stats cs now).activeChallenges =
      (stats cs now).totalChallenges ∧
    (stats cs now).completedChallenges = cs.countP (isStatus "completed" now) ∧
    (stats cs now).upcomingChallenges = cs.countP (isStatus "upcoming" now) ∧
    (stats cs now).expiredChallenges = cs.countP (isStatus "expired" now) ∧
    (stats cs now).activeChallenges = cs.countP (isStatus "active" now) ∧
    ((∀ c ∈ cs, 0 ≤ c.points) →
      (stats cs now).earnedPoints ≤ (stats cs now).totalPoints) ∧
    getFilterCounts cs now =
      ⟨cs.length, cs.countP (isStatus "active" now),
       cs.countP (isStatus "upcoming" now), cs.countP (isStatus "completed" now),
       cs.countP (isStatus "expired" now)⟩ := by
  refine ⟨?_, ?_, ?_, ?_, ?_, ?_, ?_⟩
  · unfold stats
    rw [stats_sum_foldl, stats_total_foldl]
    simp
  · unfold stats
    rw [stats_completed_foldl]
    simp
  · unfold stats
    rw [stats_upcoming_foldl]
    simp
  · unfold stats
    rw [stats_expired_foldl]
    simp
  · unfold stats
    rw [stats_active_foldl]
    simp
  · intro hp
    unfold stats
    exact stats_points_foldl now cs _ hp (by simp)
  · unfold getFilterCounts
    rw [fc_foldl]
    simp

/-- Witness for C10 on a two-element list at an instant where one
challenge is expired and the other completed. -/
theorem stats_partition_witness :
    (stats [sampleTemp, sampleDone] 25000).earnedPoints ≤
      (stats [sampleTemp, sampleDone] 25000).totalPoints ∧
    (stats [sampleTemp, sampleDone] 25000).completedChallenges =
      [sampleTemp, sampleDone].countP (isStatus "completed" 25000) :=
  ⟨(stats_partition [sampleTemp, sampleDone] 25000).2.2.2.2.2.1 (by decide),
   (stats_partition [sampleTemp, sampleDone] 25000).2.1⟩

